import Mathlib

/-!
Verification of the finrisk-vista RAG pipeline
(`app/services/rag_service.py`, class `UnifiedRAGService`).

Shallow embedding conventions:
* Python strings are Lean `String`s; all character-level operations
  (lower-casing, whitespace splitting, substring tests, slicing) are
  re-implemented structurally on `List Char` so that they compute.
* Python floats are embedded as exact rationals `ℚ`.
* A Python function that can raise returns `Option`/`Except`; the value
  `none` models the raised exception at the point where the source would
  raise, and NaN (which in the source propagates as a float value, not an
  exception) is modelled by an explicit `ConfVal.nan` constructor.
* External effects (FAISS vector search, LLM generation calls, the
  sentence-transformer similarity model) are passed in as function
  parameters; `none`/`Except.error` models an unavailable model or a call
  that raises.
* Python's `sorted(..., reverse=True)`/`list.sort(..., reverse=True)` is a
  stable descending sort; it is embedded as `List.insertionSort` with the
  relation `key b ≤ key a`, which has the same stable-descending semantics.
-/

/- ===================== string utilities ===================== -/

/-- Substring test on character lists: Python's `needle in hay`. -/
def charsInfixOf (needle : List Char) : List Char → Bool
  | [] => needle.isEmpty
  | c :: cs => needle.isPrefixOf (c :: cs) || charsInfixOf needle cs

/-- Python `needle in hay` on strings. -/
def substrOf (needle hay : String) : Bool :=
  charsInfixOf needle.data hay.data

/-- Python `str.lower()` (ASCII case folding; the source's texts contain only
ASCII letters plus CJK characters, which `lower()` leaves unchanged). -/
def lowerS (s : String) : String :=
  ⟨s.data.map Char.toLower⟩

/-- Python slice `s[:n]`. -/
def strTake (s : String) (n : Nat) : String :=
  ⟨s.data.take n⟩

/-- Python `len(s)`. -/
def strLen (s : String) : Nat :=
  s.data.length

/-- Accumulator worker for `wsSplit`; `cur` holds the characters of the
current token in reverse order. -/
def wsSplitGo (cur : List Char) : List Char → List String
  | [] => if cur.isEmpty then [] else [⟨cur.reverse⟩]
  | c :: cs =>
    if c.isWhitespace then
      if cur.isEmpty then wsSplitGo [] cs
      else ⟨cur.reverse⟩ :: wsSplitGo [] cs
    else wsSplitGo (c :: cur) cs

/-- Whitespace splitting on character lists: Python `str.split()` with no
argument (split on whitespace runs, dropping empty pieces). -/
def wsSplit (cs : List Char) : List String :=
  wsSplitGo [] cs

/-- Python `s.split()`. -/
def pySplit (s : String) : List String :=
  wsSplit s.data

/-- Python `s.strip()`. -/
def pyStrip (s : String) : String :=
  ⟨(((s.data.dropWhile Char.isWhitespace).reverse.dropWhile
      Char.isWhitespace).reverse)⟩

/-- Python `sep.join(parts)`. -/
def joinSep (sep : String) : List String → String
  | [] => ""
  | [x] => x
  | x :: y :: rest => x ++ sep ++ joinSep sep (y :: rest)

/-- First-occurrence deduplication, as Python `set` iteration order /
`dict` insertion order preserves first occurrences. -/
def uniqFirst (seen : List String) : List String → List String
  | [] => []
  | x :: xs =>
    if seen.contains x then uniqFirst seen xs
    else x :: uniqFirst (x :: seen) xs

/-- Python regex `re.search(r'\d', s)`: does the string contain a digit?
The source's presence patterns `r'\d+(?:\.\d+)?%?'` and
`r'\d+(?:\.\d+)?[%$]?'` match somewhere in a string iff the string
contains a digit, so presence checks reduce to this. -/
def hasDigit (s : String) : Bool :=
  s.data.any Char.isDigit

/-- Scanner state for `scanNums`: outside a token, inside the integer
part of a token, or inside the fractional part. -/
inductive ScanMode where
  | search
  | intPart
  | fracPart

/-- One-pass scanner implementing Python's
`re.findall(r'\d+(?:\.\d+)?%?', s)`; `acc` holds the current token in
reverse order. -/
def scanGo : ScanMode → List Char → List Char → List String
  | .search, _, [] => []
  | .search, _, c :: cs =>
    if c.isDigit then scanGo .intPart [c] cs else scanGo .search [] cs
  | .intPart, acc, [] => [⟨acc.reverse⟩]
  | .intPart, acc, ['.'] => [⟨acc.reverse⟩]
  | .intPart, acc, '.' :: d :: cs =>
    if d.isDigit then scanGo .fracPart (d :: '.' :: acc) cs
    else (⟨acc.reverse⟩ : String) :: scanGo .search [] (d :: cs)
  | .intPart, acc, '%' :: cs =>
    (⟨('%' :: acc).reverse⟩ : String) :: scanGo .search [] cs
  | .intPart, acc, c :: cs =>
    if c.isDigit then scanGo .intPart (c :: acc) cs
    else (⟨acc.reverse⟩ : String) :: scanGo .search [] cs
  | .fracPart, acc, [] => [⟨acc.reverse⟩]
  | .fracPart, acc, '%' :: cs =>
    (⟨('%' :: acc).reverse⟩ : String) :: scanGo .search [] cs
  | .fracPart, acc, c :: cs =>
    if c.isDigit then scanGo .fracPart (c :: acc) cs
    else (⟨acc.reverse⟩ : String) :: scanGo .search [] cs

/-- Python `re.findall(r'\d+(?:\.\d+)?%?', s)`: extract the numeric
tokens of a string, left to right, leftmost-greedy. -/
def scanNums (cs : List Char) : List String :=
  scanGo .search [] cs

/- ===================== data model ===================== -/

/-- Metadata bag carried on a LangChain `Document` (the keys the pipeline
reads/writes; a key absent from the Python dict is `none`). -/
structure DocMeta where
  chunk_type : Option String := none
  importance_score : Option ℚ := none
  keyword_score : Option ℚ := none
  financial_score : Option ℕ := none
  total_score : Option ℚ := none
  rerank_score : Option ℚ := none
  document_index : Option ℕ := none
  chunk_index : Option ℕ := none
  compressed : Bool := false
  original_length : Option ℕ := none
  compressed_length : Option ℕ := none
  deriving DecidableEq

/-- A LangChain `Document`. -/
structure Document where
  page_content : String
  metadata : DocMeta := {}
  deriving DecidableEq

/-- One entry of `intelligent_qa`'s `citations` list. -/
structure Citation where
  id : ℕ
  content_preview : String
  relevance_score : ℚ
  document_type : String
  deriving DecidableEq

/-- Value of the computed confidence: a float, where `nan` models the NaN
produced by `np.mean([])` on an empty document list. -/
inductive ConfVal where
  | num (q : ℚ)
  | nan
  deriving DecidableEq

/-- Structured result dict returned by `intelligent_qa`
(`processing_time`, a wall-clock measurement, is not modelled). -/
structure QAResult where
  query : String
  answer : String
  confidence_score : ConfVal
  citations : List Citation
  explanation : String
  relevant_documents : List (String × ℚ)
  retrieval_strategy : String
  documents_retrieved : ℕ
  deriving DecidableEq

/-- One turn of `conversation_history`: (role, content). -/
structure HistItem where
  role : String
  content : String

/-- The `self.config` defaults of `UnifiedRAGService.__init__`. -/
structure RagConfig where
  chunk_size : ℕ := 1000
  chunk_overlap : ℕ := 200
  retrieval_k : ℕ := 10
  rerank_top_k : ℕ := 5
  similarity_threshold : ℚ := 7/10
  use_reranking : Bool := true
  use_compression : Bool := true

/-- Default configuration (no overrides supplied). -/
def defaultConfig : RagConfig := {}

/- ===================== keyword dictionaries ===================== -/

/-- `_load_financial_keywords`: category order and list order as in the
source dict (Python dicts iterate in insertion order). -/
def financial_keywords : List (String × List String) :=
  [("risk_types",
    ["market risk", "credit risk", "operational risk", "liquidity risk",
     "regulatory risk", "reputational risk", "cybersecurity risk",
     "interest rate risk", "currency risk", "commodity risk"]),
   ("regulations",
    ["SOX", "SEC", "FINRA", "Basel", "Dodd-Frank", "GAAP", "IFRS",
     "COSO", "PCAOB", "FDIC", "OCC"]),
   ("financial_metrics",
    ["VaR", "leverage ratio", "capital ratio", "ROE", "ROA",
     "debt to equity", "current ratio", "quick ratio", "gross margin",
     "net margin", "EBITDA"]),
   ("risk_indicators",
    ["risk", "uncertainty", "threat", "challenge", "exposure",
     "vulnerability", "adverse", "negative", "decline", "loss",
     "deficit", "concern", "issue"]),
   ("financial_statements",
    ["balance sheet", "income statement", "cash flow statement",
     "statement of equity", "10-K", "10-Q", "8-K", "annual report",
     "quarterly report"])]

/-- Lookup of one category list from `self.financial_keywords`. -/
def kwCategory (name : String) : List String :=
  ((financial_keywords.find? (fun p => p.1 == name)).map Prod.snd).getD []

/- ===================== chunk semantics and classification ===================== -/

/-- Content signature used by `_deduplicate_documents`: the first 100
characters of `page_content`. -/
def contentSig (d : Document) : String :=
  strTake d.page_content 100

/-- Worker for `_deduplicate_documents`: `seen` is the set of signatures
already emitted. -/
def dedupGo (seen : List String) : List Document → List Document
  | [] => []
  | d :: rest =>
    if seen.contains (contentSig d) then dedupGo seen rest
    else d :: dedupGo (contentSig d :: seen) rest

/-- `_deduplicate_documents`: drop every document whose first-100-character
signature was already seen; first occurrence wins. -/
def _deduplicate_documents (docs : List Document) : List Document :=
  dedupGo [] docs

/- ===================== keyword filter ===================== -/

/-- Python `set(query.lower().split())`, as its distinct elements in
first-occurrence order (the source only takes the set's size, iterates
it for order-independent sums, and tests membership). -/
def queryTermSet (query : String) : List String :=
  uniqFirst [] (pySplit (lowerS query))

/-- Per-document `keyword_score` of `_keyword_filter`: fraction of query
terms occurring in the lowered content (division by the number of query
terms, unguarded in the source). -/
def keywordScoreOf (qt : List String) (cl : String) : ℚ :=
  ((qt.countP (fun t => substrOf t cl) : ℕ) : ℚ) / ((qt.length : ℕ) : ℚ)

/-- Per-document `financial_score` of `_keyword_filter`: number of
dictionary keywords that occur (case-sensitively, as in the source) in the
lowered content and contain some query term as a substring. -/
def financialScoreOf (qt : List String) (cl : String) : ℕ :=
  (financial_keywords.map (fun p =>
    p.2.countP (fun term =>
      substrOf term cl && qt.any (fun q => substrOf q term)))).sum

/-- Per-document `total_score` of `_keyword_filter`. -/
def totalScoreOf (qt : List String) (cl : String) : ℚ :=
  keywordScoreOf qt cl * (7/10) + min (((financialScoreOf qt cl : ℕ) : ℚ) / 10) 1 * (3/10)

/-- Metadata update performed by `_keyword_filter` on each kept document. -/
def kfAnnotate (qt : List String) (d : Document) : Document :=
  let cl := lowerS d.page_content
  { d with metadata := { d.metadata with
      keyword_score := some (keywordScoreOf qt cl)
      financial_score := some (financialScoreOf qt cl)
      total_score := some (totalScoreOf qt cl) } }

/-- Stable descending sort by `metadata.get("total_score", 0)`
(Python `sorted(..., reverse=True)` is stable). -/
def sortByTotalDesc (l : List Document) : List Document :=
  List.insertionSort
    (fun a b => b.metadata.total_score.getD 0 ≤ a.metadata.total_score.getD 0) l

/-- `_keyword_filter`: keep documents whose `total_score` strictly exceeds
`similarity_threshold * 0.5`, annotated, sorted descending by
`total_score`. Returns `none` for the `ZeroDivisionError` raised when the
query has no tokens and at least one document enters the loop. -/
def _keyword_filter (cfg : RagConfig) (query : String) (docs : List Document) :
    Option (List Document) :=
  let qt := queryTermSet query
  if qt.isEmpty && !docs.isEmpty then none
  else some (sortByTotalDesc (docs.filterMap (fun d =>
    if cfg.similarity_threshold * (1/2) < totalScoreOf qt (lowerS d.page_content)
    then some (kfAnnotate qt d) else none)))

/- ===================== reranker ===================== -/

/-- The `type_weights` dict of `_calculate_rerank_score`, with
`.get(chunk_type, 0.5)` default. -/
def type_weights (t : String) : ℚ :=
  if t = "risk_disclosure" then 1
  else if t = "compliance" then 9/10
  else if t = "financial_data" then 4/5
  else if t = "management_analysis" then 7/10
  else if t = "regulatory" then 4/5
  else if t = "risk_assessment" then 9/10
  else if t = "general" then 1/2
  else 1/2

/-- `_calculate_rerank_score`. `sem` is the external sentence-transformer
cosine similarity; `none` models both an unavailable model and an encode
call that raises, in which case the source adds the constant 0.2. -/
def _calculate_rerank_score (sem : String → Document → Option ℚ)
    (query : String) (document : Document) : ℚ :=
  let s0 : ℚ :=
    match sem query document with
    | some v => v * (2/5)
    | none => 1/5
  let s1 := s0 + document.metadata.keyword_score.getD 0 * (3/10)
  let s2 := s1 + document.metadata.importance_score.getD (1/2) * (1/5)
  let s3 := s2 + type_weights (document.metadata.chunk_type.getD "general") * (1/10)
  min s3 1

/-- Metadata update performed by `_intelligent_reranking` on each document. -/
def rrAnnotate (sem : String → Document → Option ℚ) (query : String)
    (d : Document) : Document :=
  { d with metadata :=
      { d.metadata with rerank_score := some (_calculate_rerank_score sem query d) } }

/-- `_intelligent_reranking`: score every document, stable-sort descending
by `rerank_score`, keep the top `rerank_top_k`. -/
def _intelligent_reranking (cfg : RagConfig) (sem : String → Document → Option ℚ)
    (query : String) (documents : List Document) : List Document :=
  let reranked := documents.map (rrAnnotate sem query)
  (List.insertionSort
    (fun a b => b.metadata.rerank_score.getD 0 ≤ a.metadata.rerank_score.getD 0)
    reranked).take cfg.rerank_top_k

/- ===================== context compressor ===================== -/

/-- `_compress_context`. `genComp` is the external generation call for one
document; `Except.error` models a call that raises, in which case the
source keeps the original document. -/
def _compress_context (genComp : Document → Except Unit String)
    (query : String) (documents : List Document) : List Document :=
  if documents.length ≤ 3 then documents
  else
    documents.map (fun doc =>
      match genComp doc with
      | .ok compressed_content =>
        { page_content := pyStrip compressed_content
          metadata := { doc.metadata with
            compressed := true
            original_length := some (strLen doc.page_content)
            compressed_length := some (strLen compressed_content) } }
      | .error _ => doc)

/- ===================== advanced retrieval ===================== -/

/-- `_advanced_retrieve`. `search` is the external
`vectorstore.similarity_search`; `none` models a raised exception. The
whole body is wrapped in `try/except` returning `[]`, which catches both a
failed search and `_keyword_filter`'s `ZeroDivisionError`. -/
def _advanced_retrieve (cfg : RagConfig)
    (search : String → ℕ → Option (List Document))
    (sem : String → Document → Option ℚ)
    (genComp : Document → Except Unit String) (query : String) : List Document :=
  match search query cfg.retrieval_k with
  | none => []
  | some documents =>
    match _keyword_filter cfg query documents with
    | none => []
    | some filtered_docs =>
      let reranked_docs :=
        if cfg.use_reranking && decide (cfg.rerank_top_k < filtered_docs.length)
        then _intelligent_reranking cfg sem query filtered_docs
        else filtered_docs
      if cfg.use_compression && decide (3 < reranked_docs.length)
      then _compress_context genComp query reranked_docs
      else reranked_docs

/- ===================== multi-hop retrieval ===================== -/

/-- The `multi_hop_indicators` list of `_requires_multi_hop_reasoning`. -/
def multi_hop_indicators : List String :=
  ["compare", "relationship", "impact", "cause", "effect",
   "correlation", "trend", "change", "difference", "connection"]

/-- `_requires_multi_hop_reasoning`. -/
def _requires_multi_hop_reasoning (query : String) : Bool :=
  multi_hop_indicators.any (fun w => substrOf w (lowerS query))

/-- `_extract_key_concepts_from_docs`: gather every dictionary keyword
occurring in the first 3 documents (with multiplicity, in iteration
order), then return the top 5 by frequency; `Counter.most_common` sorts by
count descending, stable, ties in first-insertion order. -/
def _extract_key_concepts_from_docs (docs : List Document) : List String :=
  let key_concepts := ((docs.take 3).map (fun doc =>
    let cl := lowerS doc.page_content
    (financial_keywords.map (fun p =>
      p.2.filter (fun term => substrOf term cl))).flatten)).flatten
  let uniq := uniqFirst [] key_concepts
  (List.insertionSort
    (fun a b => key_concepts.count b ≤ key_concepts.count a) uniq).take 5

/-- The concept queries actually issued by `_multi_hop_retrieval`: one per
concept among the first 3 extracted concepts (`key_concepts[:3]`). -/
def _multi_hop_queries (query : String) (initial_docs : List Document) :
    List String :=
  ((_extract_key_concepts_from_docs initial_docs).take 3).map
    (fun concept => concept ++ " " ++ query)

/-- `_multi_hop_retrieval`: issue the concept queries (k=3; a failed search
contributes nothing), merge behind the initial documents, deduplicate,
truncate to `rerank_top_k`. -/
def _multi_hop_retrieval (cfg : RagConfig)
    (search : String → ℕ → Option (List Document)) (query : String)
    (initial_docs : List Document) : List Document :=
  let additional_docs :=
    ((_multi_hop_queries query initial_docs).map
      (fun cq => (search cq 3).getD [])).flatten
  (_deduplicate_documents (initial_docs ++ additional_docs)).take cfg.rerank_top_k

/- ===================== answer synthesis ===================== -/

/-- The fixed fallback answer returned by `_generate_answer` when the
generation call raises. -/
def answerFallback : String :=
  "抱歉，在生成答案时遇到了问题。请尝试重新表述您的问题。"

/-- `_generate_answer`. The grounding prompt built from the top 5 documents
feeds only the external generation call, which is abstracted as
`genAnswer`; on exception the source returns the fixed fallback answer. -/
def _generate_answer (genAnswer : Except Unit String) : String :=
  match genAnswer with
  | .ok answer => pyStrip answer
  | .error _ => answerFallback

/-- `_verify_facts`: extract numeric tokens from the answer, check which
appear verbatim in the joined document contents, and prepend a warning if
fewer than half do (ratio 1.0 when there are no numbers). -/
def _verify_facts (answer : String) (documents : List Document) : String :=
  let numbers := scanNums answer.data
  let all_doc_content := joinSep " " (documents.map Document.page_content)
  let verified_numbers := numbers.filter (fun num => substrOf num all_doc_content)
  let verif : ℚ :=
    if numbers.isEmpty then 1
    else ((verified_numbers.length : ℕ) : ℚ) / ((numbers.length : ℕ) : ℚ)
  if verif < 1/2 then "⚠️ 部分信息可能需要进一步验证\n\n" ++ answer
  else answer

/-- Worker for `_format_answer`, implementing
`re.sub(r'。([^。]{100,})', '。\n\n\1', s)`: after a `。` followed by at
least 100 non-`。` characters, insert a paragraph break; scanning resumes
after the matched run. -/
def fmtGo : List Char → List Char
  | [] => []
  | c :: cs =>
    if c = '。' then
      let run := cs.takeWhile (fun d => d ≠ '。')
      if 100 ≤ run.length then
        c :: '\n' :: '\n' :: (run ++ fmtGo (cs.drop run.length))
      else c :: fmtGo cs
    else c :: fmtGo cs
termination_by cs => cs.length
decreasing_by
  · have := List.length_drop run.length cs
    simp [List.length_drop]
    omega
  · simp
  · simp

/-- `_format_answer`: insert paragraph breaks, only for answers longer
than 500 characters. -/
def _format_answer (answer : String) : String :=
  if 500 < strLen answer then ⟨fmtGo answer.data⟩ else answer

/-- The `disclaimer_triggers` list of `_requires_disclaimer`. -/
def disclaimer_triggers : List String :=
  ["investment", "invest", "buy", "sell", "recommendation",
   "advice", "should", "suggest", "recommend"]

/-- `_requires_disclaimer`. -/
def _requires_disclaimer (query : String) : Bool :=
  disclaimer_triggers.any (fun w => substrOf w (lowerS query))

/-- `_post_process_answer`: fact verification, formatting, and the
disclaimer for investment-advice queries. -/
def _post_process_answer (answer query : String) (documents : List Document) :
    String :=
  let verified_answer := _verify_facts answer documents
  let formatted_answer := _format_answer verified_answer
  if _requires_disclaimer query then
    formatted_answer ++
      "\n\n⚠️ 免责声明：本分析基于提供的文档内容，仅供参考。具体决策请咨询专业顾问。"
  else formatted_answer

/-- `_calculate_confidence`. Returns `none` for the `ZeroDivisionError`
raised when the query splits to no tokens, and `some ConfVal.nan` for the
NaN produced by `np.mean([...])` on an empty document list (a float value
that then propagates through every addition and the final `min`). -/
def _calculate_confidence (query : String) (documents : List Document)
    (answer : String) : Option ConfVal :=
  let query_terms := queryTermSet query
  if query_terms.isEmpty then none
  else if documents.isEmpty then some .nan
  else
    let doc_quality :=
      ((documents.map (fun d => d.metadata.rerank_score.getD (1/2))).sum) /
        ((documents.length : ℕ) : ℚ)
    let c1 := doc_quality * (2/5)
    let answer_completeness := min (((strLen answer : ℕ) : ℚ) / 500) 1
    let c2 := c1 + answer_completeness * (1/5)
    let keyword_match :=
      ((query_terms.countP (fun t => (queryTermSet answer).contains t) : ℕ) : ℚ) /
        ((query_terms.length : ℕ) : ℚ)
    let c3 := c2 + keyword_match * (1/5)
    let doc_count_score := min (((documents.length : ℕ) : ℚ) / 5) 1
    let c4 := c3 + doc_count_score * (1/10)
    let c5 := if hasDigit answer then c4 + 1/10 else c4
    some (.num (min c5 1))

/-- `_generate_citations`: one citation per retained document. -/
def _generate_citations (documents : List Document) : List Citation :=
  documents.enum.map (fun p =>
    { id := p.1 + 1
      content_preview := strTake p.2.page_content 150 ++ "..."
      relevance_score := p.2.metadata.rerank_score.getD 0
      document_type := p.2.metadata.chunk_type.getD "unknown" })

/-- `_generate_explanation`: the external explanation call, with the
source's fixed fallback text on exception. -/
def _generate_explanation (genExpl : Except Unit String)
    (documents : List Document) : String :=
  match genExpl with
  | .ok explanation => pyStrip explanation
  | .error _ =>
    "基于 " ++ toString documents.length ++ " 个相关文档片段生成的答案"

/- ===================== query preprocessing ===================== -/

/-- `_extract_conversation_context`: from the last 2 history turns, keep
the user turns as `之前问题：...`, joined by spaces. -/
def _extract_conversation_context (history : List HistItem) : String :=
  joinSep " "
    (((history.drop (history.length - 2)).filter
        (fun item => item.role == "user")).map
      (fun item => "之前问题：" ++ item.content))

/-- `_expand_financial_terms`: append risk-type and regulation expansions
in parentheses when triggered. -/
def _expand_financial_terms (query : String) : String :=
  let query_lower := lowerS query
  let riskCtx :=
    if substrOf "risk" query_lower then
      ((kwCategory "risk_types").filter (fun rt =>
        (pySplit rt).any (fun word => substrOf word query_lower))).take 3
    else []
  let regCtx :=
    (kwCategory "regulations").filterMap (fun regulation =>
      if substrOf (lowerS regulation) query_lower
      then some (regulation ++ " compliance") else none)
  let expansions := riskCtx ++ regCtx
  if expansions.isEmpty then query
  else query ++ " (" ++ joinSep " OR " expansions ++ ")"

/-- `_preprocess_query`: strip, prepend conversation context if any,
expand financial terms. -/
def _preprocess_query (query : String) (history : List HistItem) : String :=
  let processed := pyStrip query
  let processed :=
    if history.isEmpty then processed
    else
      let context := _extract_conversation_context history
      if context = "" then processed else context ++ " " ++ processed
  _expand_financial_terms processed

/- ===================== intelligent_qa ===================== -/

/-- The retained-document stage of `intelligent_qa`: `relevant_docs` after
`_advanced_retrieve` and the optional multi-hop round, lifted to a
definition so theorems can refer to it. -/
def qaRetained (cfg : RagConfig)
    (search : String → ℕ → Option (List Document))
    (sem : String → Document → Option ℚ)
    (genComp : Document → Except Unit String)
    (query : String) (history : List HistItem) : List Document :=
  let processed_query := _preprocess_query query history
  let first_docs := _advanced_retrieve cfg search sem genComp processed_query
  if _requires_multi_hop_reasoning processed_query
  then _multi_hop_retrieval cfg search processed_query first_docs
  else first_docs

/-- `intelligent_qa`: the full question-answering entry point. The dynamic
prompt built by `_generate_dynamic_prompt`/`_select_prompt_template` feeds
only the abstracted generation call `genAnswer` and is elided. The only
modelled exception that reaches the function's own `except` handler is
`_calculate_confidence`'s `ZeroDivisionError` (every other fallible step
catches its own exceptions internally); the handler returns the source's
degraded error dict. `processing_time` is not modelled. -/
def intelligent_qa (cfg : RagConfig)
    (search : String → ℕ → Option (List Document))
    (sem : String → Document → Option ℚ)
    (genComp : Document → Except Unit String)
    (genAnswer : Except Unit String)
    (genExpl : Except Unit String)
    (query : String) (history : List HistItem) : QAResult :=
  let processed_query := _preprocess_query query history
  let relevant_docs := qaRetained cfg search sem genComp query history
  let answer := _generate_answer genAnswer
  let final_answer := _post_process_answer answer processed_query relevant_docs
  match _calculate_confidence processed_query relevant_docs final_answer with
  | none =>
    { query := query
      answer := "抱歉，处理查询时出现错误: division by zero"
      confidence_score := .num 0
      citations := []
      explanation := "系统错误"
      relevant_documents := []
      retrieval_strategy := "error"
      documents_retrieved := 0 }
  | some confidence_score =>
    { query := query
      answer := final_answer
      confidence_score := confidence_score
      citations := _generate_citations relevant_docs
      explanation := _generate_explanation genExpl relevant_docs
      relevant_documents := relevant_docs.map (fun doc =>
        (strTake doc.page_content 200 ++ "...", doc.metadata.rerank_score.getD 0))
      retrieval_strategy := "advanced_hybrid"
      documents_retrieved := relevant_docs.length }

/- ===================== chunker (spec model) ===================== -/

/-- Modelled from the spec: the Chunker (spec §4.1) is implemented in the
source by LangChain's `RecursiveCharacterTextSplitter`, library code not
present under `src/`. The model follows the spec's words: chunks of at
most `chunk_size = 1000` characters, consecutive chunks sharing the last
`chunk_overlap = 200` characters; the separator preference only moves the
cut point, so it is abstracted as a cut-choice function `choose`, clamped
to the geometry the spec prescribes (beyond the overlap, at most the
chunk size). A final short remainder is emitted whole. -/
def chunkFrom (choose : List Char → ℕ) (cs : List Char) : List (List Char) :=
  if cs.length ≤ 1000 then [cs]
  else
    cs.take (min (max (choose cs) 201) 1000) ::
      chunkFrom choose (cs.drop (min (max (choose cs) 201) 1000 - 200))
termination_by cs.length
decreasing_by
  simp only [List.length_drop]
  omega

/-- The concatenation of non-overlapping remainders: the first chunk whole,
every later chunk with its 200 leading overlap characters removed. -/
def reassemble : List (List Char) → List Char
  | [] => []
  | c :: rest => c ++ (rest.map (fun x => x.drop 200)).flatten

/- ===================== helper lemmas: deduplication ===================== -/

theorem dedupGo_sublist (seen : List String) (docs : List Document) :
    (dedupGo seen docs).Sublist docs := by
  induction docs generalizing seen with
  | nil => simp [dedupGo]
  | cons d rest ih =>
    simp only [dedupGo]
    split
    · exact (ih seen).cons d
    · exact (ih (contentSig d :: seen)).cons₂ d

theorem dedupGo_sig_not_seen (docs : List Document) :
    ∀ (seen : List String) (d : Document), d ∈ dedupGo seen docs →
      seen.contains (contentSig d) = false := by
  induction docs with
  | nil => intro seen d hd; simp [dedupGo] at hd
  | cons x rest ih =>
    intro seen d hd
    simp only [dedupGo] at hd
    by_cases hx : seen.contains (contentSig x)
    · rw [if_pos hx] at hd
      exact ih seen d hd
    · rw [if_neg hx] at hd
      rcases List.mem_cons.mp hd with h | h
      · subst h; simpa using hx
      · have := ih _ d h
        simp only [List.contains_cons, Bool.or_eq_false_iff] at this
        exact this.2

theorem dedupGo_sig_nodup (docs : List Document) :
    ∀ seen : List String, ((dedupGo seen docs).map contentSig).Nodup := by
  induction docs with
  | nil => intro seen; simp [dedupGo]
  | cons x rest ih =>
    intro seen
    simp only [dedupGo]
    split
    · exact ih seen
    · simp only [List.map_cons, List.nodup_cons]
      refine ⟨?_, ih _⟩
      intro hmem
      rcases List.mem_map.mp hmem with ⟨d, hd, hsig⟩
      have := dedupGo_sig_not_seen rest _ d hd
      simp only [List.contains_cons, Bool.or_eq_false_iff] at this
      have h1 := this.1
      rw [hsig] at h1
      simp at h1

theorem dedupGo_find? (docs : List Document) :
    ∀ (seen : List String) (s : String), seen.contains s = false →
      (dedupGo seen docs).find? (fun x => contentSig x == s) =
        docs.find? (fun x => contentSig x == s) := by
  induction docs with
  | nil => intro seen s _; simp [dedupGo]
  | cons d rest ih =>
    intro seen s hs
    simp only [dedupGo]
    by_cases hd : seen.contains (contentSig d)
    · rw [if_pos hd]
      have hne : ¬((fun x => contentSig x == s) d = true) := by
        simp only [beq_iff_eq]
        intro h
        rw [h] at hd
        rw [hd] at hs
        exact Bool.true_eq_false.mp hs
      rw [@List.find?_cons_of_neg _ (fun x => contentSig x == s) d rest hne,
          ih seen s hs]
    · rw [if_neg hd]
      by_cases heq : ((fun x => contentSig x == s) d = true)
      · rw [@List.find?_cons_of_pos _ (fun x => contentSig x == s) d
              (dedupGo (contentSig d :: seen) rest) heq,
            @List.find?_cons_of_pos _ (fun x => contentSig x == s) d rest heq]
      · rw [@List.find?_cons_of_neg _ (fun x => contentSig x == s) d
              (dedupGo (contentSig d :: seen) rest) heq,
            @List.find?_cons_of_neg _ (fun x => contentSig x == s) d rest heq]
        refine ih _ s ?_
        simp only [List.contains_cons, Bool.or_eq_false_iff]
        refine ⟨?_, hs⟩
        simp only [beq_iff_eq] at heq
        exact beq_eq_false_iff_ne.mpr (fun h => heq h.symm)

/- ===================== helper lemmas: chunker ===================== -/

theorem chunkFrom_drop (choose : List Char → ℕ) (cs : List Char) :
    ((chunkFrom choose cs).map (fun x => x.drop 200)).flatten = cs.drop 200 := by
  induction cs using chunkFrom.induct choose with
  | case1 cs h => rw [chunkFrom, if_pos h]; simp
  | case2 cs h ih =>
    rw [chunkFrom, if_neg h]
    simp only [List.map_cons, List.flatten_cons]
    rw [ih]
    have hc1 : 201 ≤ min (max (choose cs) 201) 1000 := by omega
    rw [List.drop_take, List.drop_drop]
    have he : min (max (choose cs) 201) 1000 - 200 + 200 =
        min (max (choose cs) 201) 1000 := by omega
    rw [he]
    calc
      List.take (min (max (choose cs) 201) 1000 - 200) (List.drop 200 cs) ++
          List.drop (min (max (choose cs) 201) 1000) cs
        = List.take (min (max (choose cs) 201) 1000 - 200) (List.drop 200 cs) ++
            List.drop (min (max (choose cs) 201) 1000 - 200)
              (List.drop 200 cs) := by
          rw [List.drop_drop]
          have h2 : 200 + (min (max (choose cs) 201) 1000 - 200) =
              min (max (choose cs) 201) 1000 := by omega
          rw [h2]
      _ = List.drop 200 cs := List.take_append_drop _ _

theorem chunkFrom_size (choose : List Char → ℕ) (cs : List Char) :
    ∀ chunk ∈ chunkFrom choose cs, chunk.length ≤ 1000 := by
  induction cs using chunkFrom.induct choose with
  | case1 cs h =>
    intro chunk hc
    rw [chunkFrom, if_pos h] at hc
    simp at hc
    subst hc
    exact h
  | case2 cs h ih =>
    intro chunk hc
    rw [chunkFrom, if_neg h] at hc
    rcases List.mem_cons.mp hc with h' | h'
    · subst h'
      simp only [List.length_take]
      omega
    · exact ih chunk h'

/- ===================== claim theorems ===================== -/

/-- C8: for every input text (and any separator-driven cut choice within
the configured geometry, chunk_size 1000 / overlap 200), concatenating the
first chunk with every later chunk stripped of its 200-character overlap
reproduces the source text exactly, and every chunk fits the chunk size.
(Chunker modelled from the spec; see `chunkFrom`.) -/
theorem chunk_reconstruction (choose : List Char → ℕ) (cs : List Char) :
    reassemble (chunkFrom choose cs) = cs ∧
    ∀ chunk ∈ chunkFrom choose cs, chunk.length ≤ 1000 := by
  refine ⟨?_, chunkFrom_size choose cs⟩
  rw [chunkFrom]
  by_cases h : cs.length ≤ 1000
  · rw [if_pos h]; simp [reassemble]
  · rw [if_neg h]
    simp only [reassemble]
    rw [chunkFrom_drop, List.drop_drop]
    have hc1 : 201 ≤ min (max (choose cs) 201) 1000 := by simp
    have : min (max (choose cs) 201) 1000 - 200 + 200 =
        min (max (choose cs) 201) 1000 := by omega
    rw [this, List.take_append_drop]

/-- C6: after `_deduplicate_documents`, no two surviving documents share
the same first-100-character signature, the output is a subsequence of the
input, and for every input document the surviving document with its
signature is exactly the first input document carrying that signature. -/
theorem deduplicate_documents_spec (docs : List Document) :
    ((_deduplicate_documents docs).map contentSig).Nodup ∧
    (_deduplicate_documents docs).Sublist docs ∧
    ∀ d ∈ docs,
      (_deduplicate_documents docs).find?
          (fun x => contentSig x == contentSig d) =
        docs.find? (fun x => contentSig x == contentSig d) ∧
      ∃ kept, docs.find? (fun x => contentSig x == contentSig d) = some kept := by
  refine ⟨dedupGo_sig_nodup docs [], dedupGo_sublist [] docs, ?_⟩
  intro d hd
  refine ⟨dedupGo_find? docs [] (contentSig d) rfl, ?_⟩
  have h : (docs.find? (fun x => contentSig x == contentSig d)).isSome :=
    List.find?_isSome.mpr ⟨d, hd, by simp⟩
  exact Option.isSome_iff_exists.mp h

/-- Witness for C6 at a concrete three-document list with a duplicated
signature. -/
theorem deduplicate_documents_spec_witness :
    (_deduplicate_documents [⟨"aa", {}⟩, ⟨"ab", {}⟩, ⟨"aa", {}⟩]).find?
        (fun x => contentSig x == contentSig (⟨"aa", {}⟩ : Document)) =
      ([⟨"aa", {}⟩, ⟨"ab", {}⟩, ⟨"aa", {}⟩] : List Document).find?
        (fun x => contentSig x == contentSig (⟨"aa", {}⟩ : Document)) :=
  ((deduplicate_documents_spec _).2.2 _ (by decide)).1

/-- C9: the context compressor never drops a document: lists of at most 3
documents are returned unchanged, longer lists map to exactly one output
document per input document, and a document whose generation call fails is
kept unchanged. -/
theorem compress_context_never_drops (genComp : Document → Except Unit String)
    (query : String) (documents : List Document) :
    (documents.length ≤ 3 →
      _compress_context genComp query documents = documents) ∧
    (_compress_context genComp query documents).length = documents.length ∧
    ∀ (i : ℕ) (d0 : Document), documents[i]? = some d0 →
      genComp d0 = .error () →
        (_compress_context genComp query documents)[i]? = some d0 := by
  by_cases hlen : documents.length ≤ 3
  · have hid : _compress_context genComp query documents = documents := by
      simp [_compress_context, hlen]
    refine ⟨fun _ => hid, by rw [hid], ?_⟩
    intro i d0 hget herr
    rw [hid, hget]
  · have hmap : _compress_context genComp query documents =
        documents.map (fun doc =>
          match genComp doc with
          | .ok compressed_content =>
            { page_content := pyStrip compressed_content
              metadata := { doc.metadata with
                compressed := true
                original_length := some (strLen doc.page_content)
                compressed_length := some (strLen compressed_content) } }
          | .error _ => doc) := by
      simp [_compress_context, hlen]
    refine ⟨fun h => absurd h hlen, by rw [hmap]; simp, ?_⟩
    intro i d0 hget herr
    rw [hmap, List.getElem?_map, hget]
    simp [herr]

/-- Witness for C9 at a concrete four-document list whose generation calls
all fail. -/
theorem compress_context_never_drops_witness :
    (_compress_context (fun _ => .error ()) "q"
        [⟨"a", {}⟩, ⟨"b", {}⟩, ⟨"c", {}⟩, ⟨"d", {}⟩])[0]? =
      some (⟨"a", {}⟩ : Document) :=
  (compress_context_never_drops (fun _ => .error ()) "q" _).2.2 0 ⟨"a", {}⟩
    (by decide) rfl

/-- C10: the keyword-overlap divisions of `_keyword_filter` and
`_calculate_confidence` are guarded by nothing: both are defined for every
query with at least one whitespace token, and a token-free query is
outside both domains (`ZeroDivisionError`, modelled as `none`) as soon as
the filter loop runs over at least one document. -/
theorem token_guard_necessity (cfg : RagConfig) (query answer : String)
    (docs : List Document) (d : Document) (ds : List Document) :
    (queryTermSet query ≠ [] →
      (_keyword_filter cfg query docs).isSome ∧
      (_calculate_confidence query docs answer).isSome) ∧
    (queryTermSet query = [] →
      _keyword_filter cfg query (d :: ds) = none ∧
      _calculate_confidence query docs answer = none) := by
  constructor
  · intro hne
    have hfalse : (queryTermSet query).isEmpty = false := by
      simpa [List.isEmpty_iff] using hne
    constructor
    · simp [_keyword_filter, hfalse]
    · by_cases hdocs : docs.isEmpty <;> simp [_calculate_confidence, hfalse, hdocs]
  · intro hempty
    have htrue : (queryTermSet query).isEmpty = true := by
      simp [List.isEmpty_iff, hempty]
    constructor
    · simp [_keyword_filter, htrue]
    · simp [_calculate_confidence, htrue]

/-- Witness for C10: a one-token query is accepted by both computations, a
whitespace-only query is rejected by both. -/
theorem token_guard_necessity_witness :
    ((_keyword_filter defaultConfig "risk levels" [⟨"risk", {}⟩]).isSome ∧
      (_calculate_confidence "risk levels" [⟨"risk", {}⟩] "answer").isSome) ∧
    (_keyword_filter defaultConfig " " [⟨"risk", {}⟩] = none ∧
      _calculate_confidence " " [⟨"risk", {}⟩] "answer" = none) :=
  ⟨(token_guard_necessity defaultConfig "risk levels" "answer" [⟨"risk", {}⟩]
      ⟨"risk", {}⟩ []).1 (by decide),
   (token_guard_necessity defaultConfig " " "answer" [⟨"risk", {}⟩]
      ⟨"risk", {}⟩ []).2 (by decide)⟩

/-- Every content-type weight is at most 1. -/
theorem type_weights_le_one (t : String) : type_weights t ≤ 1 := by
  unfold type_weights
  split_ifs <;> norm_num

/-- C4: for in-range inputs (keyword score, importance score and semantic
similarity at most 1, as the pipeline produces them) the rerank score is
exactly the claimed weighted sum 0.4·semantic + 0.3·keyword +
0.2·importance + 0.1·type-weight, with the constant 0.2 substituted when
no similarity value is available; the weight table is the claimed one; and
on a candidate list longer than rerank_top_k = 5 the reranker returns
exactly 5 documents, sorted descending by rerank score, each an annotated
input document; the kept documents are the TOP 5: every kept document's
rerank score dominates every dropped document's, where kept and dropped
together are exactly the annotated candidates. -/
theorem intelligent_reranking_spec (sem : String → Document → Option ℚ)
    (query : String) (documents : List Document)
    (hk : ∀ d ∈ documents, d.metadata.keyword_score.getD 0 ≤ 1)
    (hi : ∀ d ∈ documents, d.metadata.importance_score.getD (1/2) ≤ 1)
    (hs : ∀ d ∈ documents, ∀ v, sem query d = some v → v ≤ 1)
    (hlen : defaultConfig.rerank_top_k < documents.length) :
    (∀ d ∈ documents,
      _calculate_rerank_score sem query d =
        (match sem query d with
         | some v => v * (2/5)
         | none => 1/5) +
        d.metadata.keyword_score.getD 0 * (3/10) +
        d.metadata.importance_score.getD (1/2) * (1/5) +
        type_weights (d.metadata.chunk_type.getD "general") * (1/10)) ∧
    (type_weights "risk_disclosure" = 1 ∧ type_weights "compliance" = 9/10 ∧
      type_weights "risk_assessment" = 9/10 ∧ type_weights "regulatory" = 4/5 ∧
      type_weights "financial_data" = 4/5 ∧
      type_weights "management_analysis" = 7/10 ∧
      type_weights "general" = 1/2) ∧
    (_intelligent_reranking defaultConfig sem query documents).length = 5 ∧
    (_intelligent_reranking defaultConfig sem query documents).Pairwise
      (fun a b =>
        b.metadata.rerank_score.getD 0 ≤ a.metadata.rerank_score.getD 0) ∧
    (∀ x ∈ _intelligent_reranking defaultConfig sem query documents,
      ∃ d ∈ documents, x = rrAnnotate sem query d ∧
        x.metadata.rerank_score = some (_calculate_rerank_score sem query d)) ∧
    (∀ x ∈ _intelligent_reranking defaultConfig sem query documents,
      ∀ y ∈ (List.insertionSort (fun a b =>
          b.metadata.rerank_score.getD 0 ≤ a.metadata.rerank_score.getD 0)
          (documents.map (rrAnnotate sem query))).drop
            defaultConfig.rerank_top_k,
        y.metadata.rerank_score.getD 0 ≤ x.metadata.rerank_score.getD 0) ∧
    (_intelligent_reranking defaultConfig sem query documents ++
        (List.insertionSort (fun a b =>
          b.metadata.rerank_score.getD 0 ≤ a.metadata.rerank_score.getD 0)
          (documents.map (rrAnnotate sem query))).drop
            defaultConfig.rerank_top_k).Perm
      (documents.map (rrAnnotate sem query)) := by
  haveI hTot : IsTotal Document (fun a b =>
      b.metadata.rerank_score.getD 0 ≤ a.metadata.rerank_score.getD 0) :=
    ⟨fun a b => le_total _ _⟩
  haveI hTrans : IsTrans Document (fun a b =>
      b.metadata.rerank_score.getD 0 ≤ a.metadata.rerank_score.getD 0) :=
    ⟨fun _ _ _ h1 h2 => le_trans h2 h1⟩
  refine ⟨?_, ⟨rfl, rfl, rfl, rfl, rfl, rfl, rfl⟩, ?_, ?_, ?_, ?_, ?_⟩
  · intro d hd
    unfold _calculate_rerank_score
    have h1 : (match sem query d with
        | some v => v * (2/5)
        | none => (1:ℚ)/5) ≤ 2/5 := by
      rcases hsem : sem query d with _ | v
      · norm_num
      · have hv := hs d hd v hsem
        simp only []
        calc v * (2/5) ≤ 1 * (2/5) :=
              mul_le_mul_of_nonneg_right hv (by norm_num)
          _ = 2/5 := by norm_num
    have h2 : d.metadata.keyword_score.getD 0 * (3/10) ≤ 3/10 := by
      calc d.metadata.keyword_score.getD 0 * (3/10) ≤ 1 * (3/10) :=
            mul_le_mul_of_nonneg_right (hk d hd) (by norm_num)
        _ = 3/10 := by norm_num
    have h3 : d.metadata.importance_score.getD (1/2) * (1/5) ≤ 1/5 := by
      calc d.metadata.importance_score.getD (1/2) * (1/5) ≤ 1 * (1/5) :=
            mul_le_mul_of_nonneg_right (hi d hd) (by norm_num)
        _ = 1/5 := by norm_num
    have h4 : type_weights (d.metadata.chunk_type.getD "general") * (1/10) ≤
        1/10 := by
      calc type_weights (d.metadata.chunk_type.getD "general") * (1/10) ≤
            1 * (1/10) :=
            mul_le_mul_of_nonneg_right
              (type_weights_le_one (d.metadata.chunk_type.getD "general"))
              (by norm_num)
        _ = 1/10 := by norm_num
    apply min_eq_left
    linarith
  · simp only [_intelligent_reranking, List.length_take,
      List.length_insertionSort, List.length_map]
    simp only [defaultConfig] at hlen ⊢
    omega
  · refine List.Pairwise.sublist (List.take_sublist _ _) ?_
    exact List.sorted_insertionSort _ _
  · intro x hx
    have hx2 : x ∈ List.insertionSort (fun a b =>
        b.metadata.rerank_score.getD 0 ≤ a.metadata.rerank_score.getD 0)
        (documents.map (rrAnnotate sem query)) :=
      (List.take_sublist _ _).mem hx
    have hx3 : x ∈ documents.map (rrAnnotate sem query) :=
      (List.perm_insertionSort _ _).mem_iff.mp hx2
    rcases List.mem_map.mp hx3 with ⟨d, hd, hdx⟩
    exact ⟨d, hd, hdx.symm, by rw [← hdx]; rfl⟩
  · intro x hx y hy
    unfold _intelligent_reranking at hx
    dsimp only at hx
    have hS : (List.insertionSort (fun a b =>
        b.metadata.rerank_score.getD 0 ≤ a.metadata.rerank_score.getD 0)
        (documents.map (rrAnnotate sem query))).Pairwise (fun a b =>
          b.metadata.rerank_score.getD 0 ≤ a.metadata.rerank_score.getD 0) :=
      List.sorted_insertionSort _ _
    have happ : (List.take defaultConfig.rerank_top_k
        (List.insertionSort (fun a b =>
          b.metadata.rerank_score.getD 0 ≤ a.metadata.rerank_score.getD 0)
          (documents.map (rrAnnotate sem query))) ++
        List.drop defaultConfig.rerank_top_k
        (List.insertionSort (fun a b =>
          b.metadata.rerank_score.getD 0 ≤ a.metadata.rerank_score.getD 0)
          (documents.map (rrAnnotate sem query)))).Pairwise (fun a b =>
            b.metadata.rerank_score.getD 0 ≤ a.metadata.rerank_score.getD 0) := by
      rw [List.take_append_drop]
      exact hS
    exact (List.pairwise_append.mp happ).2.2 x hx y hy
  · unfold _intelligent_reranking
    dsimp only
    rw [List.take_append_drop]
    exact List.perm_insertionSort _ _

/-- Witness for C4 at six concrete documents with default metadata and no
similarity model: the reranker keeps exactly 5. -/
theorem intelligent_reranking_spec_witness :
    (_intelligent_reranking defaultConfig (fun _ _ => none) "q"
      [⟨"a", {}⟩, ⟨"b", {}⟩, ⟨"c", {}⟩, ⟨"d", {}⟩, ⟨"e", {}⟩,
        ⟨"f", {}⟩]).length = 5 :=
  (intelligent_reranking_spec (fun _ _ => none) "q" _
    (by intro d hd; fin_cases hd <;> norm_num [Option.getD])
    (by intro d hd; fin_cases hd <;> norm_num [Option.getD])
    (by intro d _ v hv; simp at hv)
    (by decide)).2.2.1

/- ===================== helper lemmas: filter/retrieve lengths ===================== -/

theorem compress_context_length (genComp : Document → Except Unit String)
    (query : String) (documents : List Document) :
    (_compress_context genComp query documents).length = documents.length := by
  unfold _compress_context
  split
  · rfl
  · rw [List.length_map]

theorem keyword_filter_length_le (cfg : RagConfig) (query : String)
    (docs : List Document) (l : List Document)
    (h : _keyword_filter cfg query docs = some l) : l.length ≤ docs.length := by
  simp only [_keyword_filter] at h
  split at h
  · exact absurd h (by simp)
  · have := Option.some.inj h
    subst this
    unfold sortByTotalDesc
    rw [List.length_insertionSort]
    exact List.length_filterMap_le _ _

theorem intelligent_reranking_length_le (cfg : RagConfig)
    (sem : String → Document → Option ℚ) (query : String)
    (documents : List Document) :
    (_intelligent_reranking cfg sem query documents).length ≤
      cfg.rerank_top_k := by
  unfold _intelligent_reranking
  simp only [List.length_take]
  omega

/-- C5 (amended): with at least one query token, `_keyword_filter` keeps
exactly the candidates whose `total_score = 0.7·keyword_overlap +
0.3·min(domain_hits/10, 1)` is STRICTLY ABOVE `similarity_threshold × 0.5`
(the source uses `>`, not `≥`), returns them annotated and sorted
descending by `total_score`, and the hybrid retrieval result never exceeds
`2 × rerank_top_k` candidates under the default configuration. -/
theorem keyword_filter_spec (query : String) (docs : List Document)
    (hq : queryTermSet query ≠ []) :
    (∀ (search : String → ℕ → Option (List Document))
        (sem : String → Document → Option ℚ)
        (genComp : Document → Except Unit String),
      (∀ q k r, search q k = some r → r.length ≤ k) →
      (_advanced_retrieve defaultConfig search sem genComp query).length ≤
        2 * defaultConfig.rerank_top_k) ∧
    ∃ l, _keyword_filter defaultConfig query docs = some l ∧
      (∀ d ∈ docs,
        (defaultConfig.similarity_threshold * (1/2) <
            totalScoreOf (queryTermSet query) (lowerS d.page_content) ↔
          kfAnnotate (queryTermSet query) d ∈ l)) ∧
      l.Pairwise (fun a b =>
        b.metadata.total_score.getD 0 ≤ a.metadata.total_score.getD 0) ∧
      (∀ x ∈ l, ∃ d ∈ docs, x = kfAnnotate (queryTermSet query) d ∧
        x.metadata.total_score =
          some (totalScoreOf (queryTermSet query) (lowerS d.page_content))) := by
  haveI hTot : IsTotal Document (fun a b =>
      b.metadata.total_score.getD 0 ≤ a.metadata.total_score.getD 0) :=
    ⟨fun a b => le_total _ _⟩
  haveI hTrans : IsTrans Document (fun a b =>
      b.metadata.total_score.getD 0 ≤ a.metadata.total_score.getD 0) :=
    ⟨fun _ _ _ h1 h2 => le_trans h2 h1⟩
  have hqe : (queryTermSet query).isEmpty = false := by
    simpa [List.isEmpty_iff] using hq
  constructor
  · intro search sem genComp hsearch
    unfold _advanced_retrieve
    rcases hS : search query defaultConfig.retrieval_k with _ | found
    · simp
    · have hfound : found.length ≤ defaultConfig.retrieval_k :=
        hsearch _ _ _ hS
      rcases hF : _keyword_filter defaultConfig query found with _ | filtered
      · simp [hF]
      · have hfl : filtered.length ≤ found.length :=
          keyword_filter_length_le _ _ _ _ hF
        simp only [hF]
        have hk5 : defaultConfig.rerank_top_k = 5 := rfl
        have hk10 : defaultConfig.retrieval_k = 10 := rfl
        split
        · have hr := intelligent_reranking_length_le defaultConfig sem query
            filtered
          split
          · rw [compress_context_length]
            omega
          · omega
        · have hr : filtered.length ≤ 10 := by omega
          split
          · rw [compress_context_length]
            omega
          · omega
  · refine ⟨sortByTotalDesc (docs.filterMap (fun d =>
      if defaultConfig.similarity_threshold * (1/2) <
          totalScoreOf (queryTermSet query) (lowerS d.page_content)
      then some (kfAnnotate (queryTermSet query) d) else none)), ?_, ?_, ?_, ?_⟩
    · unfold _keyword_filter
      rw [if_neg (by simp [hqe])]
    · intro d hd
      constructor
      · intro hgt
        have hmem : kfAnnotate (queryTermSet query) d ∈ docs.filterMap
            (fun d => if defaultConfig.similarity_threshold * (1/2) <
                totalScoreOf (queryTermSet query) (lowerS d.page_content)
              then some (kfAnnotate (queryTermSet query) d) else none) := by
          apply List.mem_filterMap.mpr
          exact ⟨d, hd, by rw [if_pos hgt]⟩
        unfold sortByTotalDesc
        exact (List.perm_insertionSort _ _).mem_iff.mpr hmem
      · intro hmem
        unfold sortByTotalDesc at hmem
        have hmem2 := (List.perm_insertionSort _ _).mem_iff.mp hmem
        rcases List.mem_filterMap.mp hmem2 with ⟨a, _, ha⟩
        split at ha
        · rename_i hgt
          have hpc : a.page_content = d.page_content := by
            have := congrArg Document.page_content (Option.some.inj ha)
            simpa [kfAnnotate] using this
          rwa [hpc] at hgt
        · exact absurd ha (by simp)
    · unfold sortByTotalDesc
      exact List.Pairwise.sublist (List.Sublist.refl _)
        (List.sorted_insertionSort _ _)
    · intro x hx
      unfold sortByTotalDesc at hx
      have hx2 := (List.perm_insertionSort _ _).mem_iff.mp hx
      rcases List.mem_filterMap.mp hx2 with ⟨d, hd, hdx⟩
      split at hdx
      · exact ⟨d, hd, (Option.some.inj hdx).symm,
          by rw [← Option.some.inj hdx]; rfl⟩
      · exact absurd hdx (by simp)

/-- Counterexample for C5 as stated: a candidate whose total score equals
`similarity_threshold × 0.5` exactly ("not below") is dropped, because
the source compares with strict `>`. -/
theorem keyword_filter_boundary_cex :
    totalScoreOf (queryTermSet "alpha beta") (lowerS "alpha") =
      defaultConfig.similarity_threshold * (1/2) ∧
    _keyword_filter defaultConfig "alpha beta" [⟨"alpha", {}⟩] = some [] := by
  have h1 : totalScoreOf (queryTermSet "alpha beta") (lowerS "alpha") = 7/20 := by
    rw [show queryTermSet "alpha beta" = ["alpha", "beta"] from by decide]
    unfold totalScoreOf keywordScoreOf
    rw [show financialScoreOf ["alpha", "beta"] (lowerS "alpha") = 0 from by decide,
        show (["alpha", "beta"] : List String).countP
          (fun t => substrOf t (lowerS "alpha")) = 1 from by decide]
    norm_num
  refine ⟨by rw [h1]; norm_num [defaultConfig], ?_⟩
  unfold _keyword_filter
  rw [if_neg (by decide)]
  simp only [List.filterMap]
  rw [show queryTermSet "alpha beta" = ["alpha", "beta"] from by decide] at h1 ⊢
  norm_num [h1, sortByTotalDesc, List.insertionSort, defaultConfig]

/-- Witness for C5's amended theorem: with the one-document result list
the hybrid retrieval respects the 2×rerank_top_k bound, and a candidate
strictly above the threshold is kept. -/
theorem keyword_filter_spec_witness :
    (_advanced_retrieve defaultConfig
        (fun _ k => some (([⟨"alpha", {}⟩] : List Document).take k))
        (fun _ _ => none) (fun _ => .error ()) "alpha beta").length ≤
      2 * defaultConfig.rerank_top_k ∧
    ∃ l, _keyword_filter defaultConfig "alpha beta" [⟨"alpha", {}⟩] = some l ∧
      (defaultConfig.similarity_threshold * (1/2) <
          totalScoreOf (queryTermSet "alpha beta") (lowerS "alpha") ↔
        kfAnnotate (queryTermSet "alpha beta") ⟨"alpha", {}⟩ ∈ l) := by
  have h := keyword_filter_spec "alpha beta" [⟨"alpha", {}⟩] (by decide)
  refine ⟨h.1 _ _ _ ?_, ?_⟩
  · intro q k r hr
    have hrr : r = ([⟨"alpha", {}⟩] : List Document).take k :=
      (Option.some.inj hr).symm
    subst hrr
    simpa using List.length_take_le k _
  · rcases h.2 with ⟨l, hl, hiff, _, _⟩
    exact ⟨l, hl, hiff ⟨"alpha", {}⟩ (by simp)⟩

/-- C3 (amended): for every query with at least one whitespace token,
every nonempty retained-document list whose rerank-score entries (default
0.5 when absent) are nonnegative, and every answer text, the confidence
score is a number with 0 ≤ confidence ≤ 1. The two excluded edge cases
are genuinely outside the function: a token-free query raises
ZeroDivisionError and an empty document list yields NaN. -/
theorem calculate_confidence_bounds (query : String) (documents : List Document)
    (answer : String) (hq : queryTermSet query ≠ []) (hd : documents ≠ [])
    (hr : ∀ d ∈ documents, 0 ≤ d.metadata.rerank_score.getD (1/2)) :
    ∃ c, _calculate_confidence query documents answer = some (.num c) ∧
      0 ≤ c ∧ c ≤ 1 := by
  have hqe : (queryTermSet query).isEmpty = false := by
    simpa [List.isEmpty_iff] using hq
  have hde : documents.isEmpty = false := by
    simpa [List.isEmpty_iff] using hd
  unfold _calculate_confidence
  rw [if_neg (by simp [hqe]), if_neg (by simp [hde])]
  refine ⟨_, rfl, ?_, min_le_right _ _⟩
  have hdq : (0:ℚ) ≤
      ((documents.map (fun d => d.metadata.rerank_score.getD (1/2))).sum) /
        ((documents.length : ℕ) : ℚ) := by
    apply div_nonneg
    · apply List.sum_nonneg
      intro x hx
      rcases List.mem_map.mp hx with ⟨d, hdm, hdx⟩
      rw [← hdx]
      exact hr d hdm
    · positivity
  have hcomp : (0:ℚ) ≤ min (((strLen answer : ℕ) : ℚ) / 500) 1 := by
    apply le_min
    · positivity
    · norm_num
  have hkm : (0:ℚ) ≤
      (((queryTermSet query).countP
          (fun t => (queryTermSet answer).contains t) : ℕ) : ℚ) /
        (((queryTermSet query).length : ℕ) : ℚ) := by
    positivity
  have hdc : (0:ℚ) ≤ min (((documents.length : ℕ) : ℚ) / 5) 1 := by
    apply le_min
    · positivity
    · norm_num
  apply le_min
  · split
    · nlinarith
    · nlinarith
  · norm_num

/-- Counterexample for C3 as stated: at a token-free query the confidence
computation raises ZeroDivisionError (modelled `none`); at an empty
retained-document list it evaluates to NaN; and a document whose rerank
score is -7/20 — a value `_calculate_rerank_score` itself produces, e.g.
at cosine similarity -1 with importance 0 — drives the confidence to
-3/25 < 0. Each violates `0 ≤ confidence_score ≤ 1`, so each hypothesis
of the amended theorem is forced. -/
theorem calculate_confidence_out_of_bounds_cex :
    _calculate_confidence " " [⟨"doc", {}⟩] "answer" = none ∧
    _calculate_confidence "query" [] "answer" = some ConfVal.nan ∧
    _calculate_rerank_score (fun _ _ => some (-1)) "q"
      ⟨"doc", { importance_score := some 0 }⟩ = -(7/20) ∧
    _calculate_confidence "q" [⟨"doc", { rerank_score := some (-(7/20)) }⟩]
      "" = some (ConfVal.num (-(3/25))) ∧
    -(3/25) < (0:ℚ) := by
  refine ⟨rfl, rfl, ?_, ?_, by norm_num⟩
  · unfold _calculate_rerank_score
    dsimp only
    simp only [Option.getD_none, Option.getD_some]
    rw [show type_weights "general" = 1/2 from rfl]
    norm_num [min_def]
  · unfold _calculate_confidence
    rw [if_neg (by decide), if_neg (by decide)]
    simp only [List.map_cons, List.map_nil, Option.getD_some, List.sum_cons,
      List.sum_nil, List.length_cons, List.length_nil]
    rw [show strLen "" = 0 from by decide,
        show (queryTermSet "q").countP
          (fun t => (queryTermSet "").contains t) = 0 from by decide,
        show (queryTermSet "q").length = 1 from by decide,
        show hasDigit "" = false from by decide]
    norm_num [min_def]

/-- Witness for C3's amended theorem at a concrete one-token query and
one-document list. -/
theorem calculate_confidence_bounds_witness :
    ∃ c, _calculate_confidence "risk" [⟨"doc", {}⟩] "short answer" =
        some (.num c) ∧ 0 ≤ c ∧ c ≤ 1 :=
  calculate_confidence_bounds "risk" [⟨"doc", {}⟩] "short answer"
    (by decide) (by decide)
    (by intro d hd; fin_cases hd <;> norm_num [Option.getD])

/-- C7 (amended): a query containing a relational indicator triggers the
multi-hop path; the expander extracts at most 5 concepts (top 5 by
frequency over the first 3 retained chunks) but issues one additional
retrieval only for the FIRST 3 of them (`key_concepts[:3]`), each with
query `concept + " " + original query` at k=3; the result merges the
original retained set with the concept-seeded results, deduplicated by
first-100-character signature and truncated to rerank_top_k: the output is
exactly the initial prefix, of length min(rerank_top_k, ·), of the
deduplicated merge. -/
theorem multi_hop_retrieval_spec
    (search : String → ℕ → Option (List Document)) (query : String)
    (docs : List Document)
    (hq : ∃ w ∈ multi_hop_indicators, substrOf w (lowerS query) = true) :
    _requires_multi_hop_reasoning query = true ∧
    ((_multi_hop_queries query docs).length =
        min 3 (_extract_key_concepts_from_docs docs).length ∧
      (_extract_key_concepts_from_docs docs).length ≤ 5 ∧
      ∀ cq ∈ _multi_hop_queries query docs,
        ∃ c ∈ (_extract_key_concepts_from_docs docs).take 3,
          cq = c ++ " " ++ query) ∧
    (_multi_hop_retrieval defaultConfig search query docs).length ≤
      defaultConfig.rerank_top_k ∧
    ((_multi_hop_retrieval defaultConfig search query docs).map
      contentSig).Nodup ∧
    (∀ d ∈ _multi_hop_retrieval defaultConfig search query docs,
      d ∈ docs ∨ ∃ cq ∈ _multi_hop_queries query docs,
        d ∈ (search cq 3).getD []) ∧
    (_multi_hop_retrieval defaultConfig search query docs).length =
      min defaultConfig.rerank_top_k
        (_deduplicate_documents (docs ++
          ((_multi_hop_queries query docs).map
            (fun cq => (search cq 3).getD [])).flatten)).length ∧
    ∃ rest, _deduplicate_documents (docs ++
        ((_multi_hop_queries query docs).map
          (fun cq => (search cq 3).getD [])).flatten) =
      _multi_hop_retrieval defaultConfig search query docs ++ rest := by
  refine ⟨?_, ⟨?_, ?_, ?_⟩, ?_, ?_, ?_, ?_, ?_⟩
  · rcases hq with ⟨w, hw, hsub⟩
    exact List.any_eq_true.mpr ⟨w, hw, hsub⟩
  · simp [_multi_hop_queries, List.length_take]
  · simp only [_extract_key_concepts_from_docs, List.length_take]
    omega
  · intro cq hcq
    rcases List.mem_map.mp hcq with ⟨c, hc, hcq2⟩
    exact ⟨c, hc, hcq2.symm⟩
  · simp only [_multi_hop_retrieval, List.length_take]
    have : defaultConfig.rerank_top_k = 5 := rfl
    omega
  · unfold _multi_hop_retrieval _deduplicate_documents
    dsimp only
    rw [List.map_take]
    exact (dedupGo_sig_nodup _ []).sublist (List.take_sublist _ _)
  · intro d hd
    unfold _multi_hop_retrieval at hd
    dsimp only at hd
    have hd2 := (List.take_sublist _ _).mem hd
    have hd3 : d ∈ docs ++ ((_multi_hop_queries query docs).map
        (fun cq => (search cq 3).getD [])).join :=
      (dedupGo_sublist [] _).mem hd2
    rcases List.mem_append.mp hd3 with h | h
    · exact Or.inl h
    · rcases List.mem_flatten.mp h with ⟨l, hl, hdl⟩
      rcases List.mem_map.mp hl with ⟨cq, hcq, hlq⟩
      exact Or.inr ⟨cq, hcq, by rw [hlq]; exact hdl⟩
  · unfold _multi_hop_retrieval
    dsimp only
    rw [List.length_take]
  · unfold _multi_hop_retrieval
    dsimp only
    exact ⟨_, (List.take_append_drop _ _).symm⟩

/-- Counterexample for C7 as stated: a triggering query over a document
yielding 5 extracted concepts issues only 3 concept retrievals, not one
per extracted concept. -/
theorem multi_hop_concept_count_cex :
    _requires_multi_hop_reasoning "compare alpha" = true ∧
    (_extract_key_concepts_from_docs
      [⟨"risk uncertainty threat challenge exposure", {}⟩]).length = 5 ∧
    (_multi_hop_queries "compare alpha"
      [⟨"risk uncertainty threat challenge exposure", {}⟩]).length = 3 := by
  decide

/-- Witness for C7's amended theorem at a concrete triggering query. -/
theorem multi_hop_retrieval_spec_witness :
    (_multi_hop_retrieval defaultConfig (fun _ _ => some []) "compare alpha"
      [⟨"risk doc", {}⟩]).length ≤ defaultConfig.rerank_top_k :=
  (multi_hop_retrieval_spec (fun _ _ => some []) "compare alpha"
    [⟨"risk doc", {}⟩] ⟨"compare", by decide, by decide⟩).2.2.1

/-- C2 (amended): when the answer-generation call raises, no exception
propagates — but the failure is caught INSIDE `_generate_answer`, which
substitutes a fixed placeholder answer; `intelligent_qa` then proceeds
normally, computing the confidence score from the retained documents and
the placeholder (not forcing it to 0) and the citations from the retained
documents (not forcing them empty). The degraded confidence-0 /
empty-citation result is produced only by `intelligent_qa`'s own exception
handler, which a generation failure never reaches. -/
theorem intelligent_qa_generation_failure (cfg : RagConfig)
    (search : String → ℕ → Option (List Document))
    (sem : String → Document → Option ℚ)
    (genComp : Document → Except Unit String)
    (genExpl : Except Unit String) (query : String) (history : List HistItem)
    (cv : ConfVal)
    (hconf : _calculate_confidence (_preprocess_query query history)
        (qaRetained cfg search sem genComp query history)
        (_post_process_answer answerFallback (_preprocess_query query history)
          (qaRetained cfg search sem genComp query history)) = some cv) :
    intelligent_qa cfg search sem genComp (.error ()) genExpl query history =
      { query := query
        answer := _post_process_answer answerFallback
            (_preprocess_query query history)
            (qaRetained cfg search sem genComp query history)
        confidence_score := cv
        citations := _generate_citations
            (qaRetained cfg search sem genComp query history)
        explanation := _generate_explanation genExpl
            (qaRetained cfg search sem genComp query history)
        relevant_documents := (qaRetained cfg search sem genComp query
            history).map (fun doc =>
              (strTake doc.page_content 200 ++ "...",
                doc.metadata.rerank_score.getD 0))
        retrieval_strategy := "advanced_hybrid"
        documents_retrieved :=
          (qaRetained cfg search sem genComp query history).length } := by
  unfold intelligent_qa
  dsimp only
  rw [show _generate_answer (.error ()) = answerFallback from rfl]
  rw [hconf]

/-- Witness for C2's amended theorem: with a failing vector search the
retained set is empty, the confidence evaluates to NaN (`np.mean([])`), and
the structured result is still returned with the placeholder answer. -/
theorem intelligent_qa_generation_failure_witness :
    intelligent_qa defaultConfig (fun _ _ => none) (fun _ _ => none)
        (fun _ => .error ()) (.error ()) (.error ()) "alpha" [] =
      { query := "alpha"
        answer := _post_process_answer answerFallback
            (_preprocess_query "alpha" [])
            (qaRetained defaultConfig (fun _ _ => none) (fun _ _ => none)
              (fun _ => .error ()) "alpha" [])
        confidence_score := ConfVal.nan
        citations := _generate_citations
            (qaRetained defaultConfig (fun _ _ => none) (fun _ _ => none)
              (fun _ => .error ()) "alpha" [])
        explanation := _generate_explanation (.error ())
            (qaRetained defaultConfig (fun _ _ => none) (fun _ _ => none)
              (fun _ => .error ()) "alpha" [])
        relevant_documents := (qaRetained defaultConfig (fun _ _ => none)
            (fun _ _ => none) (fun _ => .error ()) "alpha" []).map (fun doc =>
              (strTake doc.page_content 200 ++ "...",
                doc.metadata.rerank_score.getD 0))
        retrieval_strategy := "advanced_hybrid"
        documents_retrieved := (qaRetained defaultConfig (fun _ _ => none)
            (fun _ _ => none) (fun _ => .error ()) "alpha" []).length } :=
  intelligent_qa_generation_failure defaultConfig (fun _ _ => none)
    (fun _ _ => none) (fun _ => .error ()) (.error ()) "alpha" []
    ConfVal.nan (by rfl)

/-- Counterexample for C2 as stated: with one retained document and every
generation call failing, `intelligent_qa` returns the placeholder answer
with confidence 577/2500 ≠ 0 and a nonempty citation list — not the
claimed confidence-0 / empty-citations degraded result. -/
theorem intelligent_qa_generation_failure_cex :
    (intelligent_qa defaultConfig (fun _ _ => some [⟨"alpha", {}⟩])
        (fun _ _ => none) (fun _ => .error ()) (.error ()) (.error ())
        "alpha" []).confidence_score = ConfVal.num (577/2500) ∧
    (intelligent_qa defaultConfig (fun _ _ => some [⟨"alpha", {}⟩])
        (fun _ _ => none) (fun _ => .error ()) (.error ()) (.error ())
        "alpha" []).citations ≠ [] ∧
    ConfVal.num (577/2500) ≠ ConfVal.num 0 := by
  have tfilter : _keyword_filter defaultConfig "alpha" [⟨"alpha", {}⟩] =
      some [kfAnnotate (queryTermSet "alpha") ⟨"alpha", {}⟩] := by
    unfold _keyword_filter
    rw [if_neg (by decide)]
    have htot : defaultConfig.similarity_threshold * (1/2) <
        totalScoreOf (queryTermSet "alpha") (lowerS "alpha") := by
      rw [show queryTermSet "alpha" = ["alpha"] from by decide]
      unfold totalScoreOf keywordScoreOf
      rw [show financialScoreOf ["alpha"] (lowerS "alpha") = 0 from by decide,
          show (["alpha"] : List String).countP
            (fun t => substrOf t (lowerS "alpha")) = 1 from by decide]
      norm_num [defaultConfig]
    simp only [List.filterMap]
    rw [if_pos htot]
    simp [sortByTotalDesc, List.insertionSort]
  have tR : qaRetained defaultConfig (fun _ _ => some [⟨"alpha", {}⟩])
      (fun _ _ => none) (fun _ => .error ()) "alpha" [] =
      [kfAnnotate (queryTermSet "alpha") ⟨"alpha", {}⟩] := by
    unfold qaRetained _advanced_retrieve
    rw [show _preprocess_query "alpha" [] = "alpha" from rfl]
    dsimp only
    rw [tfilter]
    dsimp only
    norm_num [show _requires_multi_hop_reasoning "alpha" = false from by decide,
      defaultConfig]
  have tfinal : _post_process_answer answerFallback "alpha"
      [kfAnnotate (queryTermSet "alpha") ⟨"alpha", {}⟩] = answerFallback := by
    unfold _post_process_answer _verify_facts _format_answer
    rw [show scanNums answerFallback.data = [] from by decide]
    dsimp only
    norm_num [show _requires_disclaimer "alpha" = false from by decide,
              show strLen answerFallback = 27 from by decide]
  have tconf : _calculate_confidence "alpha"
      [kfAnnotate (queryTermSet "alpha") ⟨"alpha", {}⟩] answerFallback =
      some (ConfVal.num (577/2500)) := by
    unfold _calculate_confidence
    rw [if_neg (by decide), if_neg (by decide)]
    have h1 : ([kfAnnotate (queryTermSet "alpha") ⟨"alpha", {}⟩].map
        (fun d => d.metadata.rerank_score.getD (1/2))).sum = 1/2 := by
      simp only [List.map_cons, List.map_nil,
        show (kfAnnotate (queryTermSet "alpha")
          (⟨"alpha", {}⟩ : Document)).metadata.rerank_score = none from rfl]
      norm_num
    rw [h1]
    rw [show strLen answerFallback = 27 from by decide]
    rw [show (queryTermSet "alpha").countP
        (fun t => (queryTermSet answerFallback).contains t) = 0 from by decide]
    rw [show (queryTermSet "alpha").length = 1 from by decide]
    rw [show hasDigit answerFallback = false from by decide]
    norm_num [min_def]
  have hqa : intelligent_qa defaultConfig (fun _ _ => some [⟨"alpha", {}⟩])
      (fun _ _ => none) (fun _ => .error ()) (.error ()) (.error ())
      "alpha" [] =
      { query := "alpha"
        answer := answerFallback
        confidence_score := ConfVal.num (577/2500)
        citations := _generate_citations
          [kfAnnotate (queryTermSet "alpha") ⟨"alpha", {}⟩]
        explanation := _generate_explanation (.error ())
          [kfAnnotate (queryTermSet "alpha") ⟨"alpha", {}⟩]
        relevant_documents := [kfAnnotate (queryTermSet "alpha")
          ⟨"alpha", {}⟩].map (fun doc =>
            (strTake doc.page_content 200 ++ "...",
              doc.metadata.rerank_score.getD 0))
        retrieval_strategy := "advanced_hybrid"
        documents_retrieved := 1 } := by
    unfold intelligent_qa
    dsimp only
    rw [show _preprocess_query "alpha" [] = "alpha" from rfl]
    rw [tR]
    rw [show _generate_answer (.error ()) = answerFallback from rfl]
    rw [tfinal, tconf]
    rfl
  refine ⟨by rw [hqa], by rw [hqa]; simp [_generate_citations], ?_⟩
  intro h
  have h2 := ConfVal.num.inj h
  norm_num at h2
